import Mathlib

/-!
Verification development for the clipper-dashboard Go backend
(`backend/main.go` plus the SQL schema in `database/init.sql`).

The handlers are shallowly embedded as pure Lean functions over an explicit
database state.  Database and filesystem failures are environmental and are
not modelled; every SQL statement issued by a handler is modelled by its
effect on the state.  Times are modelled as UTC wall-clock fields.
-/

namespace ClipperDash

/-! ### Go standard-library fragments used by the handlers -/

/-- Digits of a decimal literal folded into a `Nat`
(`strconv.Atoi`'s accumulation loop). -/
def digitsToNat (ds : List Char) : Nat :=
  ds.foldl (fun a c => a * 10 + (c.toNat - 48)) 0

/-- Model of Go `strconv.Atoi`: an optional sign followed by at least one
ASCII digit, rejecting values outside the signed 64-bit range. -/
def goAtoi (s : String) : Option Int :=
  let (neg, ds) :=
    match s.data with
    | '-' :: rest => (true, rest)
    | '+' :: rest => (false, rest)
    | cs => (false, cs)
  if ds = [] then none
  else if ds.all Char.isDigit then
    let v : Int := if neg then -(digitsToNat ds : Int) else (digitsToNat ds : Int)
    if -(2 ^ 63) ≤ v ∧ v < 2 ^ 63 then some v else none
  else none

/-- Scan of a reversed file name collecting the extension
(helper for `goExt`); `seen` holds the characters already passed,
in forward order. -/
def goExtAux : List Char → List Char → String
  | _, [] => ""
  | seen, c :: rest =>
    if c = '/' then ""
    else if c = '.' then String.mk (c :: seen)
    else goExtAux (c :: seen) rest

/-- Model of Go `filepath.Ext`: the suffix of the final path element
beginning at its final dot, empty when there is no dot. -/
def goExt (s : String) : String :=
  goExtAux [] s.data.reverse

/-- Zero-padded two-digit decimal field of Go's reference-time formatting. -/
def pad2 (n : Nat) : String :=
  if n < 10 then "0" ++ toString n else toString n

/-- Zero-padded four-digit decimal field of Go's reference-time formatting. -/
def pad4 (n : Nat) : String :=
  if n < 10 then "000" ++ toString n
  else if n < 100 then "00" ++ toString n
  else if n < 1000 then "0" ++ toString n
  else toString n

/-- Wall-clock time as used by the handlers (UTC fields; `nanos` carries the
sub-second part that second-precision formatting discards). -/
structure GoTime where
  year : Nat
  month : Nat
  day : Nat
  hour : Nat
  minute : Nat
  sec : Nat
  nanos : Nat
deriving DecidableEq, Repr

/-- Model of Go `time.Time.IsZero` on the wall-clock fields: the zero time
is January 1, year 1, 00:00:00 UTC. -/
def GoTime.isZero (t : GoTime) : Bool :=
  t.year == 1 && t.month == 1 && t.day == 1 &&
    t.hour == 0 && t.minute == 0 && t.sec == 0 && t.nanos == 0

/-- Model of `t.Format("20060102_150405")`: second-precision timestamp used
in generated clip file names. -/
def goTimestamp (t : GoTime) : String :=
  pad4 t.year ++ pad2 t.month ++ pad2 t.day ++ "_" ++
    pad2 t.hour ++ pad2 t.minute ++ pad2 t.sec

/-- Model of `t.Format(time.RFC3339)` for a UTC wall clock. -/
def goRFC3339 (t : GoTime) : String :=
  pad4 t.year ++ "-" ++ pad2 t.month ++ "-" ++ pad2 t.day ++ "T" ++
    pad2 t.hour ++ ":" ++ pad2 t.minute ++ ":" ++ pad2 t.sec ++ "Z"

/-- Character-wise ASCII lowering of a character list. -/
def lowerChars (cs : List Char) : List Char :=
  cs.map Char.toLower

/-- Model of Go `strings.ToLower` restricted to ASCII. -/
def goToLower (s : String) : String :=
  String.mk (lowerChars s.data)

/-- Model of PostgreSQL `ILIKE` pattern matching: `%` matches any sequence,
`_` matches any single character, a backslash escapes the following pattern
character, and literal characters compare case-insensitively.  A pattern
ending in a bare escape character matches nothing (PostgreSQL raises an
error there). -/
def likeMatchesCI : List Char → List Char → Bool
  | [], rest => rest.isEmpty
  | '%' :: p2, rest => rest.tails.any (fun t => likeMatchesCI p2 t)
  | '\\' :: e :: p2, rest =>
    match rest with
    | [] => false
    | d :: s2 => (e.toLower == d.toLower) && likeMatchesCI p2 s2
  | ['\\'], _ => false
  | '_' :: p2, rest =>
    match rest with
    | [] => false
    | _ :: s2 => likeMatchesCI p2 s2
  | c :: p2, rest =>
    match rest with
    | [] => false
    | d :: s2 => (c.toLower == d.toLower) && likeMatchesCI p2 s2

/-- Predicate for the query `name ILIKE '%' || f || '%'` issued by the
courts handler. -/
def ilikeContains (f name : String) : Bool :=
  likeMatchesCI ('%' :: (f.data ++ ['%'])) name.data

/-! ### Data model (tables `courts`, `booking_hours`, `clips`) -/

/-- Row of the `courts` table as carried by the handlers. -/
structure Court where
  id : Int
  name : String
  description : Option String
  isActive : Bool
deriving DecidableEq, Repr

/-- Row of the `booking_hours` table as carried by the handlers. -/
structure BookingHour where
  id : Int
  courtId : Int
  dateStart : GoTime
  dateEnd : GoTime
  status : String
deriving DecidableEq, Repr

/-- Row of the `clips` table as carried by the handlers. -/
structure Clip where
  id : Int
  bookingHourId : Int
  filename : String
  filePath : String
  fileSize : Option Int
  mimeType : Option String
  duration : Option Int
  cameraName : Option String
  uploadStatus : String
deriving DecidableEq, Repr

/-- Database plus upload-directory state visible to the handlers.  The
`next*` counters model the `SERIAL` id sequences; `files` lists the paths of
files written under the upload directory, in creation order; row lists are
in insertion order and `created_at` is taken to increase along them. -/
structure DBState where
  courts : List Court
  bookingHours : List BookingHour
  clips : List Clip
  files : List String
  nextCourtId : Int
  nextBookingHourId : Int
  nextClipId : Int
deriving DecidableEq, Repr

/-- JSON envelope `{success, message, data}` of every handler response,
tagged with the HTTP status code.  `data = none` models JSON `null`: Go
marshals both a `nil` interface and a `nil` slice as `null`, while a
non-empty slice marshals as an array (`some`).  The handlers build result
slices by appending to a `nil` slice, so an empty result stays `nil`. -/
structure Response (α : Type) where
  status : Nat
  success : Bool
  message : String
  data : Option α
deriving DecidableEq, Repr

/-- Error envelope helper (`sendErrorResponse`): `success=false`, `data`
null. -/
def errResponse (α : Type) (status : Nat) (message : String) : Response α :=
  { status := status, success := false, message := message, data := none }

/-! ### Court handlers -/

/-- Handler `getCourts` (`GET /api/v1/courts`).  With a non-empty `name`
query parameter the query is
`... FROM courts WHERE name ILIKE '%'||f||'%' AND is_active = true`,
otherwise `... FROM courts WHERE is_active = true`; this is the `courts`
slice the handler accumulates before deciding the status. -/
def courtsMatched (s : DBState) (nameFilter : String) : List Court :=
  if nameFilter ≠ "" then
    s.courts.filter (fun c => ilikeContains nameFilter c.name && c.isActive)
  else
    s.courts.filter (fun c => c.isActive)

/-- Continuation of `getCourts`: 404 on a filtered empty result, otherwise
200 carrying the scanned rows. -/
def getCourts (s : DBState) (nameFilter : String) : Response (List Court) :=
  if courtsMatched s nameFilter = [] ∧ nameFilter ≠ "" then
    errResponse _ 404 "Court not found"
  else
    { status := 200, success := true
      message := "Courts retrieved successfully"
      data := if courtsMatched s nameFilter = [] then none
              else some (courtsMatched s nameFilter) }

/-- Decoded JSON body of `POST /api/v1/courts`; absent JSON fields decode to
the zero values `""` and `none`. -/
structure CreateCourtReq where
  name : String
  description : Option String
deriving DecidableEq, Repr

/-- Handler `createCourt` (`POST /api/v1/courts`): empty name is rejected
with 400; the `INSERT` hits the unique constraint on `name` exactly when a
row with that name already exists, surfaced as 409; otherwise the row is
inserted with `is_active = true` and returned with 201. -/
def createCourt (s : DBState) (r : CreateCourtReq) :
    Response Court × DBState :=
  if r.name = "" then
    (errResponse _ 400 "Court name is required", s)
  else if s.courts.any (fun c => c.name == r.name) then
    (errResponse _ 409 "Court with this name already exists", s)
  else
    let court : Court :=
      { id := s.nextCourtId, name := r.name
        description := r.description, isActive := true }
    ({ status := 201, success := true
       message := "Court created successfully", data := some court },
     { s with courts := s.courts ++ [court], nextCourtId := s.nextCourtId + 1 })

/-! ### Booking-hour handlers -/

/-- Predicate for `SELECT EXISTS(SELECT 1 FROM courts WHERE id = $1 AND
is_active = true)`. -/
def activeCourtExists (s : DBState) (cid : Int) : Bool :=
  s.courts.any (fun c => c.id == cid && c.isActive)

/-- Handler `getBookingHours` (`GET /api/v1/booking-hours`): optional
`courtId` filter parsed with `strconv.Atoi` (non-integer rejected with 400),
rows ordered by `date_start DESC` (modelled as reverse insertion order). -/
def getBookingHours (s : DBState) (courtIdFilter : String) :
    Response (List BookingHour) :=
  if courtIdFilter ≠ "" then
    match goAtoi courtIdFilter with
    | none => errResponse _ 400 "Invalid court ID"
    | some cid =>
      let matched := (s.bookingHours.filter (fun b => b.courtId == cid)).reverse
      { status := 200, success := true
        message := "Booking hours retrieved successfully"
        data := if matched = [] then none else some matched }
  else
    let matched := s.bookingHours.reverse
    { status := 200, success := true
      message := "Booking hours retrieved successfully"
      data := if matched = [] then none else some matched }

/-- Decoded JSON body of `POST /api/v1/booking-hours`; absent fields decode
to the zero values `0`, the zero time and `""`. -/
structure CreateBHReq where
  courtId : Int
  dateStart : GoTime
  dateEnd : GoTime
  status : String
deriving DecidableEq, Repr

/-- Handler `createBookingHour` (`POST /api/v1/booking-hours`): rejects a
zero court id and zero-valued timestamps with 400, then checks that the
referenced court exists and is active (400 on failure, before any insert),
defaults `status` to "active", and inserts the row with 201. -/
def createBookingHour (s : DBState) (r : CreateBHReq) :
    Response BookingHour × DBState :=
  if r.courtId = 0 then
    (errResponse _ 400 "Court ID is required", s)
  else if r.dateStart.isZero || r.dateEnd.isZero then
    (errResponse _ 400 "Date start and date end are required", s)
  else if ¬ activeCourtExists s r.courtId then
    (errResponse _ 400 "Court not found or inactive", s)
  else
    let st := if r.status = "" then "active" else r.status
    let bh : BookingHour :=
      { id := s.nextBookingHourId, courtId := r.courtId
        dateStart := r.dateStart, dateEnd := r.dateEnd, status := st }
    ({ status := 201, success := true
       message := "Booking hour created successfully", data := some bh },
     { s with bookingHours := s.bookingHours ++ [bh]
              nextBookingHourId := s.nextBookingHourId + 1 })

/-! ### Clip upload -/

/-- File part of a multipart upload: original file name, size in bytes and
the declared `Content-Type` of the part (empty when absent). -/
structure UploadedFile where
  filename : String
  size : Int
  contentType : String
deriving DecidableEq, Repr

/-- Multipart request of `POST /api/v1/clips`.  `wellFormed` records
whether `r.ParseMultipartForm` succeeds on the body; per Go semantics its
`maxMemory` argument (`100 << 20` here) only bounds in-memory buffering of
file parts — larger files are spilled to temporary files, so the parse
outcome does not depend on `file.size`.  `file` is the `video` form file
(`none` when the part is missing). -/
structure UploadReq where
  wellFormed : Bool
  bookingHourIdStr : String
  file : Option UploadedFile
  description : String
  cameraNameField : String
deriving DecidableEq, Repr

/-- Split of a character list at every space, keeping empty segments
(helper for `goSplitSpace`). -/
def splitOnSpace : List Char → List (List Char)
  | [] => [[]]
  | c :: rest =>
    if c = ' ' then [] :: splitOnSpace rest
    else
      match splitOnSpace rest with
      | t :: ts => (c :: t) :: ts
      | [] => [[c]]

/-- Model of Go `strings.Split(s, " ")`: single-space separator, empty
segments kept, and the empty string yields `[""]`. -/
def goSplitSpace (s : String) : List String :=
  (splitOnSpace s.data).map String.mk

/-- Predicate for `SELECT EXISTS(SELECT 1 FROM booking_hours WHERE
id = $1)`. -/
def bookingHourExists (s : DBState) (bid : Int) : Bool :=
  s.bookingHours.any (fun b => b.id == bid)

/-- Scan of the camera-name loop in `uploadClip`: walks the split tokens
keeping the previous one, and returns the token before the first `"camera"`
token found at index `i > 0` (the loop breaks there); an index-0 `"camera"`
fails the `i > 0` guard and the walk continues. -/
def scanCameraAux : Option String → List String → Option String
  | _, [] => none
  | none, p :: rest => scanCameraAux (some p) rest
  | some prev, p :: rest =>
    if p = "camera" then some prev else scanCameraAux (some p) rest

/-- Camera-name derivation of `uploadClip`: the explicit `camera_name` form
value wins; otherwise a non-empty description is split on single spaces and
scanned; whatever the variable holds at the end is stored only when
non-empty (`none` models SQL `NULL` through the `*string` field). -/
def deriveCameraName (cameraField description : String) : Option String :=
  let cameraName :=
    if cameraField = "" ∧ description ≠ "" then
      match scanCameraAux none (goSplitSpace description) with
      | some v => v
      | none => cameraField
    else cameraField
  if cameraName ≠ "" then some cameraName else none

/-- MIME-type determination of `uploadClip`: the part's declared content
type when non-empty, else a switch on the lower-cased original extension. -/
def clipMimeType (declared ext : String) : String :=
  if declared ≠ "" then declared
  else
    let e := goToLower ext
    if e = ".mp4" then "video/mp4"
    else if e = ".avi" then "video/x-msvideo"
    else if e = ".webm" then "video/webm"
    else "video/mp4"

/-- Path join as used for the upload directory (separator concatenation;
`filepath.Join`'s path cleaning is irrelevant to the stored names). -/
def joinPath (a b : String) : String :=
  a ++ "/" ++ b

/-- Handler `uploadClip` (`POST /api/v1/clips`), parameterised by the wall
clock `now` and the configured upload directory.  Order of effects follows
the source: multipart parse, bookingHourId presence/parse, booking-hour
existence check, `video` part presence, file write under
`<uploadDir>/clips/clip_<id>_<timestamp><ext>`, then the metadata
`INSERT`. -/
def uploadClip (s : DBState) (r : UploadReq) (now : GoTime)
    (uploadDir : String) : Response Clip × DBState :=
  if ¬ r.wellFormed then
    (errResponse _ 400 "Failed to parse form", s)
  else if r.bookingHourIdStr = "" then
    (errResponse _ 400 "Booking hour ID is required", s)
  else
    match goAtoi r.bookingHourIdStr with
    | none => (errResponse _ 400 "Invalid booking hour ID", s)
    | some bid =>
      if ¬ bookingHourExists s bid then
        (errResponse _ 400 "Booking hour not found", s)
      else
        match r.file with
        | none => (errResponse _ 400 "No video file provided", s)
        | some fl =>
          let ext := goExt fl.filename
          let filename :=
            "clip_" ++ toString bid ++ "_" ++ goTimestamp now ++ ext
          let filePath := joinPath (joinPath uploadDir "clips") filename
          let mime := clipMimeType fl.contentType ext
          let clip : Clip :=
            { id := s.nextClipId, bookingHourId := bid
              filename := filename, filePath := filePath
              fileSize := some fl.size, mimeType := some mime
              duration := none
              cameraName := deriveCameraName r.cameraNameField r.description
              uploadStatus := "uploaded" }
          ({ status := 201, success := true
             message := "Clip uploaded successfully", data := some clip },
           { s with clips := s.clips ++ [clip]
                    files := s.files ++ [filePath]
                    nextClipId := s.nextClipId + 1 })

/-- Handler `getClips` (`GET /api/v1/clips`): optional `bookingHourId`
filter parsed with `strconv.Atoi` (non-integer rejected with 400), rows
ordered by `created_at DESC` (modelled as reverse insertion order). -/
def getClips (s : DBState) (bookingHourIdFilter : String) :
    Response (List Clip) :=
  if bookingHourIdFilter ≠ "" then
    match goAtoi bookingHourIdFilter with
    | none => errResponse _ 400 "Invalid booking hour ID"
    | some bid =>
      let matched := (s.clips.filter (fun c => c.bookingHourId == bid)).reverse
      { status := 200, success := true
        message := "Clips retrieved successfully"
        data := if matched = [] then none else some matched }
  else
    let matched := s.clips.reverse
    { status := 200, success := true
      message := "Clips retrieved successfully"
      data := if matched = [] then none else some matched }

/-! ### Health check -/

/-- Payload of `GET /api/v1/health`. -/
structure HealthData where
  timestamp : String
  version : String
  database : String
deriving DecidableEq, Repr

/-- Handler `healthCheck` (`GET /api/v1/health`): pings the store and
reports "connected"/"disconnected" in the payload, always answering 200
with `success = true`. -/
def healthCheck (dbUp : Bool) (now : GoTime) : Response HealthData :=
  let dbStatus := if dbUp then "connected" else "disconnected"
  { status := 200, success := true
    message := "Service is healthy"
    data := some { timestamp := goRFC3339 now, version := "1.0.0"
                   database := dbStatus } }

/-! ### Specification-side predicates -/

/-- Boolean prefix test on character lists (spec-side companion of the
pattern matcher). -/
def leadsWith : List Char → List Char → Bool
  | [], _ => true
  | _ :: _, [] => false
  | a :: as, b :: bs => (a == b) && leadsWith as bs

/-- Case-insensitive substring test: some tail of `name` starts with `f`,
comparing lower-cased characters.  This is the spec's "case-insensitive
substring match". -/
def ciSubstr (f name : String) : Bool :=
  name.data.tails.any (fun t => leadsWith (lowerChars f.data) (lowerChars t))

/-- Characters that PostgreSQL `LIKE`/`ILIKE` does not read literally. -/
def plainChar (c : Char) : Prop :=
  c ≠ '%' ∧ c ≠ '_' ∧ c ≠ '\\'

instance (c : Char) : Decidable (plainChar c) :=
  inferInstanceAs (Decidable (c ≠ '%' ∧ c ≠ '_' ∧ c ≠ '\\'))

/-- Active courts whose name contains the filter as a case-insensitive
substring: the set the spec says a filtered `ListCourts` returns. -/
def ciActiveMatches (s : DBState) (f : String) : List Court :=
  s.courts.filter (fun c => c.isActive && ciSubstr f c.name)

/-- Fixed extension-to-MIME table named by the spec for uploads without a
declared content type. -/
def mimeTable (e : String) : String :=
  if e = ".mp4" then "video/mp4"
  else if e = ".avi" then "video/x-msvideo"
  else if e = ".webm" then "video/webm"
  else "video/mp4"

/-- Camera-name rule exactly as the claim states it: the token immediately
before the first occurrence of the token "camera", provided that occurrence
is not the first token; otherwise nothing; an explicit field wins. -/
def claimCameraName (cameraField description : String) : Option String :=
  if cameraField ≠ "" then some cameraField
  else
    let ts := goSplitSpace description
    match ts.findIdx? (fun t => t = "camera") with
    | some 0 => none
    | some (j + 1) => ts[j]?
    | none => none

/-- Camera-name rule as the code actually behaves: the first consecutive
token pair whose second component is exactly "camera" yields its first
component (so an index-0 "camera" is merely skipped), stored only when that
preceding token is non-empty. -/
def amendedCameraName (ts : List String) : Option String :=
  match (ts.zip ts.tail).find? (fun pr => pr.2 = "camera") with
  | some pr => if pr.1 = "" then none else some pr.1
  | none => none

/-! ### Mutating requests as a step relation -/

/-- One state-mutating request: any of the three `POST` handlers, with an
arbitrary request body. -/
inductive AppStep : DBState → DBState → Prop
  | court (s : DBState) (r : CreateCourtReq) : AppStep s (createCourt s r).2
  | bookingHour (s : DBState) (r : CreateBHReq) :
      AppStep s (createBookingHour s r).2
  | clip (s : DBState) (r : UploadReq) (now : GoTime) (dir : String) :
      AppStep s (uploadClip s r now dir).2

/-- Reachability by any finite sequence of mutating requests (`GET`
handlers never change the state). -/
def Reaches (s t : DBState) : Prop :=
  Relation.ReflTransGen AppStep s t

/-! ### Concrete sample data -/

/-- Fresh database with no rows. -/
def emptyState : DBState :=
  { courts := [], bookingHours := [], clips := [], files := []
    nextCourtId := 1, nextBookingHourId := 1, nextClipId := 1 }

/-- Sample wall-clock instant. -/
def sampleTime : GoTime :=
  { year := 2025, month := 1, day := 2, hour := 13, minute := 4, sec := 5
    nanos := 0 }

/-- Sample active court (first row of the shipped seed data). -/
def sampleCourt : Court :=
  { id := 1, name := "Lapangan 1 Kiri"
    description := some "Left side of Court 1", isActive := true }

/-- Sample state: one active court and one booking hour with no clips. -/
def sampleState : DBState :=
  { courts := [sampleCourt]
    bookingHours := [{ id := 1, courtId := 1, dateStart := sampleTime
                       dateEnd := sampleTime, status := "active" }]
    clips := [], files := []
    nextCourtId := 2, nextBookingHourId := 2, nextClipId := 1 }

/-- State with a booking hour numbered 999 that has zero clips. -/
def emptyClipsState : DBState :=
  { courts := [sampleCourt]
    bookingHours := [{ id := 999, courtId := 1, dateStart := sampleTime
                       dateEnd := sampleTime, status := "active" }]
    clips := [], files := []
    nextCourtId := 2, nextBookingHourId := 1000, nextClipId := 1 }

/-- State with one active court named "Alpha". -/
def alphaState : DBState :=
  { courts := [{ id := 1, name := "Alpha", description := none
                 isActive := true }]
    bookingHours := [], clips := [], files := []
    nextCourtId := 2, nextBookingHourId := 1, nextClipId := 1 }

/-- Well-formed upload request carrying a 100 MB + 1 byte video for booking
hour 1. -/
def bigUploadReq : UploadReq :=
  { wellFormed := true, bookingHourIdStr := "1"
    file := some { filename := "match.mp4", size := 104857601
                   contentType := "" }
    description := "", cameraNameField := "" }

/-- Upload request whose description starts with the token "camera" and
repeats it later. -/
def camUploadReq : UploadReq :=
  { wellFormed := true, bookingHourIdStr := "1"
    file := some { filename := "match.mp4", size := 5
                   contentType := "" }
    description := "camera foo camera", cameraNameField := "" }

/-! ### Pattern-matcher lemmas -/

theorem likeMatchesCI_pct_cons (p s : List Char) :
    likeMatchesCI ('%' :: p) s = s.tails.any (fun t => likeMatchesCI p t) := rfl

theorem likeMatchesCI_plain_nil (c : Char) (hc : plainChar c) (p2 : List Char) :
    likeMatchesCI (c :: p2) [] = false := by
  obtain ⟨h1, h2, h3⟩ := hc
  conv_lhs => rw [likeMatchesCI.eq_def]
  simp [h1, h2, h3]

theorem likeMatchesCI_plain (c : Char) (hc : plainChar c) (p2 : List Char)
    (d : Char) (s2 : List Char) :
    likeMatchesCI (c :: p2) (d :: s2) =
      ((c.toLower == d.toLower) && likeMatchesCI p2 s2) := by
  obtain ⟨h1, h2, h3⟩ := hc
  conv_lhs => rw [likeMatchesCI.eq_def]
  simp [h1, h2, h3]

theorem likeMatchesCI_pct_all (s : List Char) : likeMatchesCI ['%'] s = true := by
  rw [likeMatchesCI_pct_cons, List.any_eq_true]
  exact ⟨[], (List.mem_tails _ _).mpr List.nil_suffix, by decide⟩

theorem likeMatchesCI_lit (f : List Char) (hf : ∀ c ∈ f, plainChar c) :
    ∀ s, likeMatchesCI (f ++ ['%']) s = leadsWith (lowerChars f) (lowerChars s) := by
  induction f with
  | nil =>
    intro s
    simpa [leadsWith, lowerChars] using likeMatchesCI_pct_all s
  | cons c f2 ih =>
    intro s
    have hc : plainChar c := hf c (List.mem_cons_self c f2)
    have hf2 : ∀ x ∈ f2, plainChar x := fun x hx => hf x (List.mem_cons_of_mem c hx)
    cases s with
    | nil =>
      rw [List.cons_append, likeMatchesCI_plain_nil c hc]
      simp [leadsWith, lowerChars]
    | cons d s2 =>
      rw [List.cons_append, likeMatchesCI_plain c hc]
      simp [leadsWith, lowerChars, ih hf2 s2]

theorem ilikeContains_eq_ciSubstr (f : String) (hf : ∀ c ∈ f.data, plainChar c) :
    ∀ name, ilikeContains f name = ciSubstr f name := by
  intro name
  unfold ilikeContains ciSubstr
  rw [likeMatchesCI_pct_cons]
  simp only [likeMatchesCI_lit f.data hf]

theorem leadsWith_eq_true_iff (n : List Char) :
    ∀ h, leadsWith n h = true ↔ ∃ t, h = n ++ t := by
  induction n with
  | nil => intro h; simp [leadsWith]
  | cons a as ih =>
    intro h
    cases h with
    | nil =>
      simp [leadsWith]
    | cons b bs =>
      simp only [leadsWith, Bool.and_eq_true, beq_iff_eq, ih bs, List.cons_append,
        List.cons_eq_cons]
      constructor
      · rintro ⟨rfl, t, rfl⟩; exact ⟨t, rfl, rfl⟩
      · rintro ⟨t, rfl, rfl⟩; exact ⟨rfl, t, rfl⟩

theorem ciSubstr_iff (f name : String) :
    ciSubstr f name = true ↔
      ∃ pre suf, lowerChars name.data = pre ++ lowerChars f.data ++ suf := by
  unfold ciSubstr
  rw [List.any_eq_true]
  constructor
  · rintro ⟨t, ht, hlw⟩
    obtain ⟨pre, hpre⟩ := (List.mem_tails t name.data).mp ht
    obtain ⟨suf, hsuf⟩ := (leadsWith_eq_true_iff _ _).mp hlw
    refine ⟨lowerChars pre, suf, ?_⟩
    rw [← hpre]
    simp only [lowerChars] at hsuf ⊢
    simp [hsuf, List.append_assoc]
  · rintro ⟨pre, suf, hsplit⟩
    refine ⟨name.data.drop pre.length,
      (List.mem_tails _ _).mpr (List.drop_suffix _ _), ?_⟩
    rw [leadsWith_eq_true_iff]
    refine ⟨suf, ?_⟩
    have hmap : lowerChars (name.data.drop pre.length) =
        (lowerChars name.data).drop pre.length := by
      simp [lowerChars, List.map_drop]
    rw [hmap, hsplit, List.append_assoc]
    exact List.drop_left pre (lowerChars f.data ++ suf)

/-! ### Support lemmas -/

theorem goAtoi_empty : goAtoi "" = none := rfl

theorem scanCameraAux_some (ts : List String) :
    ∀ prev, scanCameraAux (some prev) ts =
      (((prev :: ts).zip ts).find? (fun pr => pr.2 = "camera")).map
        (fun pr => pr.1) := by
  induction ts with
  | nil => intro prev; rfl
  | cons p rest ih =>
    intro prev
    by_cases hp : p = "camera"
    · simp [scanCameraAux, hp, List.zip_cons_cons, List.find?_cons]
    · simp [scanCameraAux, hp, List.zip_cons_cons, List.find?_cons, ih p]

theorem scanCameraAux_none (ts : List String) :
    scanCameraAux none ts =
      ((ts.zip ts.tail).find? (fun pr => pr.2 = "camera")).map
        (fun pr => pr.1) := by
  cases ts with
  | nil => rfl
  | cons t0 rest =>
    show scanCameraAux (some t0) rest = _
    rw [scanCameraAux_some rest t0]
    rfl

theorem createBookingHour_courts (s : DBState) (r : CreateBHReq) :
    ((createBookingHour s r).2).courts = s.courts := by
  unfold createBookingHour
  split
  · rfl
  split
  · rfl
  split
  · rfl
  rfl

theorem uploadClip_courts (s : DBState) (r : UploadReq) (now : GoTime)
    (dir : String) : ((uploadClip s r now dir).2).courts = s.courts := by
  unfold uploadClip
  split
  · rfl
  split
  · rfl
  split
  · rfl
  split
  · rfl
  split
  · rfl
  rfl

theorem AppStep_preserves_name (n : String) {s t : DBState}
    (hstep : AppStep s t) (hex : ∃ c ∈ s.courts, c.name = n) :
    ∃ c ∈ t.courts, c.name = n := by
  obtain ⟨c, hc, hcn⟩ := hex
  cases hstep with
  | court r =>
    unfold createCourt
    split
    · exact ⟨c, hc, hcn⟩
    split
    · exact ⟨c, hc, hcn⟩
    exact ⟨c, List.mem_append_left _ hc, hcn⟩
  | bookingHour r =>
    rw [createBookingHour_courts]
    exact ⟨c, hc, hcn⟩
  | clip r now dir =>
    rw [uploadClip_courts]
    exact ⟨c, hc, hcn⟩

theorem Reaches_preserves_name (n : String) {s t : DBState}
    (hre : Reaches s t) (hex : ∃ c ∈ s.courts, c.name = n) :
    ∃ c ∈ t.courts, c.name = n := by
  induction hre with
  | refl => exact hex
  | tail _ hstep ih => exact AppStep_preserves_name n hstep ih

theorem getCourts_matched_eq (s : DBState) (f : String)
    (hplain : ∀ c ∈ f.data, plainChar c) :
    s.courts.filter (fun c => ilikeContains f c.name && c.isActive) =
      ciActiveMatches s f := by
  unfold ciActiveMatches
  apply List.filter_congr
  intro c _
  rw [ilikeContains_eq_ciSubstr f hplain c.name, Bool.and_comm]

theorem getCourts_data_cases (s : DBState) (g : String) :
    (getCourts s g).data = none ∨
      (getCourts s g).data = some (courtsMatched s g) := by
  unfold getCourts
  split
  · left; rfl
  · by_cases he : courtsMatched s g = []
    · left; simp [he]
    · right; simp [he]

theorem courtsMatched_active (s : DBState) (g : String) :
    ∀ c ∈ courtsMatched s g, c.isActive = true := by
  intro c hcl
  unfold courtsMatched at hcl
  by_cases hg : g ≠ ""
  · rw [if_pos hg] at hcl
    have h2 := (List.mem_filter.mp hcl).2
    simp only [Bool.and_eq_true] at h2
    exact h2.2
  · rw [if_neg hg] at hcl
    exact (List.mem_filter.mp hcl).2

theorem getCourts_data_active (s : DBState) (g : String) (l : List Court)
    (h : (getCourts s g).data = some l) : ∀ c ∈ l, c.isActive = true := by
  rcases getCourts_data_cases s g with hnone | hsome
  · rw [h] at hnone
    exact absurd hnone (by simp)
  · rw [h, Option.some_inj] at hsome
    subst hsome
    exact courtsMatched_active s g

/-! ### Claim theorems -/

/-- C3: for every courtId that does not resolve to an existing court, or
resolves to a court with `is_active = false`, `createBookingHour` returns
HTTP 400 (a `ValidationError`, not 404) and leaves the state — in
particular the `booking_hours` table — unchanged. -/
theorem C3_createBookingHour_invalid_court (s : DBState) (r : CreateBHReq)
    (h : ∀ c ∈ s.courts, c.id = r.courtId → c.isActive = false) :
    (createBookingHour s r).1.status = 400 ∧ (createBookingHour s r).2 = s := by
  have hact : activeCourtExists s r.courtId = false := by
    simp only [activeCourtExists, List.any_eq_false]
    intro c hc
    simp only [Bool.and_eq_true, beq_iff_eq, not_and]
    intro hid
    simp [h c hc hid]
  unfold createBookingHour
  split
  · exact ⟨rfl, rfl⟩
  split
  · exact ⟨rfl, rfl⟩
  split
  · exact ⟨rfl, rfl⟩
  · rename_i hcontra
    rw [hact] at hcontra
    simp at hcontra

/-- C3 witness: court 99 does not exist in the sample state, so the insert
is refused with 400 and nothing changes. -/
theorem C3_witness :
    (createBookingHour sampleState
        { courtId := 99, dateStart := sampleTime, dateEnd := sampleTime
          status := "" }).1.status = 400 ∧
    (createBookingHour sampleState
        { courtId := 99, dateStart := sampleTime, dateEnd := sampleTime
          status := "" }).2 = sampleState :=
  C3_createBookingHour_invalid_court sampleState _ (by decide)

/-- C4: for every upload whose bookingHourId parses as an integer that does
not reference an existing booking hour, `uploadClip` returns HTTP 400 and
changes nothing — neither a file entry nor a clips row is created. -/
theorem C4_uploadClip_nonexistent_booking_hour (s : DBState) (r : UploadReq)
    (now : GoTime) (dir : String) (b : Int)
    (hwf : r.wellFormed = true)
    (hp : goAtoi r.bookingHourIdStr = some b)
    (hnone : ∀ bh ∈ s.bookingHours, bh.id ≠ b) :
    (uploadClip s r now dir).1.status = 400 ∧ (uploadClip s r now dir).2 = s := by
  have hex : bookingHourExists s b = false := by
    simp only [bookingHourExists, List.any_eq_false]
    intro bh hbh
    simp [hnone bh hbh]
  have hne : r.bookingHourIdStr ≠ "" := by
    intro h0
    rw [h0, goAtoi_empty] at hp
    exact Option.noConfusion hp
  unfold uploadClip
  simp only [hwf, hne, hp, hex, Bool.true_eq_false, not_true_eq_false,
    if_false, if_neg, Bool.false_eq_true, not_false_eq_true, if_true]
  exact ⟨rfl, trivial⟩

/-- C4 witness: booking hour 424242 does not exist in the sample state. -/
theorem C4_witness :
    (uploadClip sampleState
        { bigUploadReq with bookingHourIdStr := "424242" } sampleTime
        "./uploads").1.status = 400 ∧
    (uploadClip sampleState
        { bigUploadReq with bookingHourIdStr := "424242" } sampleTime
        "./uploads").2 = sampleState :=
  C4_uploadClip_nonexistent_booking_hour sampleState _ sampleTime "./uploads"
    424242 (by decide) (by decide) (by decide)

/-- C8: the health check always answers HTTP 200 with `success = true`;
only the payload's `database` field reflects the connectivity probe,
reading "connected" exactly when the probe succeeds and "disconnected"
otherwise. -/
theorem C8_healthCheck_always_200 (dbUp : Bool) (now : GoTime) :
    (healthCheck dbUp now).status = 200 ∧
    (healthCheck dbUp now).success = true ∧
    ∃ hd : HealthData, (healthCheck dbUp now).data = some hd ∧
      ((hd.database = "connected") ↔ dbUp = true) ∧
      ((hd.database = "disconnected") ↔ dbUp = false) := by
  cases dbUp <;>
    exact ⟨rfl, rfl, _, rfl, by simp, by simp⟩

/-- C6: every successful upload stores the file name
`"clip_" ++ bookingHourId ++ "_" ++ second-precision timestamp ++ original
extension` (the timestamp segment itself contains the date/time underscore
and the extension carries its leading dot), and the name does not depend on
the sub-second part of the wall clock. -/
theorem C6_uploadClip_filename_scheme (s : DBState) (r : UploadReq)
    (now : GoTime) (dir : String) (b : Int) (fl : UploadedFile)
    (hwf : r.wellFormed = true)
    (hp : goAtoi r.bookingHourIdStr = some b)
    (hbh : bookingHourExists s b = true)
    (hfl : r.file = some fl) :
    ∃ cl : Clip,
      (uploadClip s r now dir).1.data = some cl ∧
      cl.filename =
        "clip_" ++ toString b ++ "_" ++ goTimestamp now ++ goExt fl.filename ∧
      (uploadClip s r now dir).2.clips = s.clips ++ [cl] ∧
      (∀ n : Nat, goTimestamp { now with nanos := n } = goTimestamp now) := by
  have hne : r.bookingHourIdStr ≠ "" := by
    intro h0
    rw [h0, goAtoi_empty] at hp
    exact Option.noConfusion hp
  unfold uploadClip
  simp only [hwf, hne, hp, hbh, hfl, Bool.true_eq_false, not_true_eq_false,
    if_false, Bool.false_eq_true, not_false_eq_true, if_true]
  exact ⟨_, rfl, rfl, rfl, fun n => rfl⟩

/-- C6 witness: uploading `match.mp4` for booking hour 1 at the sample
instant stores `clip_1_20250102_130405.mp4`. -/
theorem C6_witness :
    ∃ cl : Clip,
      (uploadClip sampleState bigUploadReq sampleTime "./uploads").1.data =
        some cl ∧
      cl.filename = "clip_" ++ toString (1 : Int) ++ "_" ++
        goTimestamp sampleTime ++ goExt "match.mp4" ∧
      (uploadClip sampleState bigUploadReq sampleTime "./uploads").2.clips =
        sampleState.clips ++ [cl] ∧
      (∀ n : Nat, goTimestamp { sampleTime with nanos := n } =
        goTimestamp sampleTime) :=
  C6_uploadClip_filename_scheme sampleState bigUploadReq sampleTime "./uploads"
    1 _ (by decide) (by decide) (by decide) rfl

/-- C7: every successful upload stores as `mime_type` the declared content
type of the file part when it is non-empty, and otherwise the fixed
extension table value on the lower-cased original extension (`video/mp4`
for anything beyond `.mp4`/`.avi`/`.webm`). -/
theorem C7_uploadClip_mime_type (s : DBState) (r : UploadReq)
    (now : GoTime) (dir : String) (b : Int) (fl : UploadedFile)
    (hwf : r.wellFormed = true)
    (hp : goAtoi r.bookingHourIdStr = some b)
    (hbh : bookingHourExists s b = true)
    (hfl : r.file = some fl) :
    ∃ cl : Clip,
      (uploadClip s r now dir).1.data = some cl ∧
      cl.mimeType = some (if fl.contentType ≠ "" then fl.contentType
        else mimeTable (goToLower (goExt fl.filename))) := by
  have hne : r.bookingHourIdStr ≠ "" := by
    intro h0
    rw [h0, goAtoi_empty] at hp
    exact Option.noConfusion hp
  unfold uploadClip
  simp only [hwf, hne, hp, hbh, hfl, Bool.true_eq_false, not_true_eq_false,
    if_false, Bool.false_eq_true, not_false_eq_true, if_true]
  refine ⟨_, rfl, ?_⟩
  show some (clipMimeType fl.contentType (goExt fl.filename)) = _
  unfold clipMimeType mimeTable
  rfl

/-- C7 witness: no declared content type and extension `.mp4` stores
`video/mp4` (via the table). -/
theorem C7_witness :
    ∃ cl : Clip,
      (uploadClip sampleState bigUploadReq sampleTime "./uploads").1.data =
        some cl ∧
      cl.mimeType = some (if ("" : String) ≠ "" then ""
        else mimeTable (goToLower (goExt "match.mp4"))) :=
  C7_uploadClip_mime_type sampleState bigUploadReq sampleTime "./uploads"
    1 _ (by decide) (by decide) (by decide) rfl

/-- C5: once a `createCourt` call for some name has succeeded (201), every
later `createCourt` call with the same name — after any further sequence of
mutating requests — hits the unique constraint and returns HTTP 409 with
the state unchanged, so a second row with that name is never inserted. -/
theorem C5_createCourt_duplicate_conflict (s0 s : DBState)
    (r r2 : CreateCourtReq)
    (h201 : (createCourt s0 r).1.status = 201)
    (hre : Reaches (createCourt s0 r).2 s)
    (hn : r2.name = r.name) :
    (createCourt s r2).1.status = 409 ∧ (createCourt s r2).2 = s := by
  have hne : r.name ≠ "" := by
    intro h0
    unfold createCourt at h201
    rw [if_pos h0] at h201
    simp [errResponse] at h201
  have hdup : s0.courts.any (fun c => c.name == r.name) = false := by
    by_contra hcon
    rw [Bool.not_eq_false] at hcon
    unfold createCourt at h201
    rw [if_neg hne, if_pos (by exact_mod_cast hcon)] at h201
    simp [errResponse] at h201
  have hex0 : ∃ c ∈ (createCourt s0 r).2.courts, c.name = r.name := by
    unfold createCourt
    rw [if_neg hne, if_neg (by simp [hdup])]
    exact ⟨_, List.mem_append_right _ (List.mem_singleton.mpr rfl), rfl⟩
  have hex : ∃ c ∈ s.courts, c.name = r.name :=
    Reaches_preserves_name r.name hre hex0
  have hany : s.courts.any (fun c => c.name == r2.name) = true := by
    rw [List.any_eq_true]
    obtain ⟨c, hc, hcn⟩ := hex
    exact ⟨c, hc, by simp [hcn, hn]⟩
  have hne2 : r2.name ≠ "" := by rw [hn]; exact hne
  unfold createCourt
  rw [if_neg hne2, if_pos (by exact_mod_cast hany)]
  exact ⟨rfl, rfl⟩

/-- C5 witness: creating "Lapangan 1 Kiri" on a fresh database succeeds;
immediately repeating the same request yields 409 and no state change. -/
theorem C5_witness :
    (createCourt (createCourt emptyState
        { name := "Lapangan 1 Kiri", description := none }).2
      { name := "Lapangan 1 Kiri", description := none }).1.status = 409 ∧
    (createCourt (createCourt emptyState
        { name := "Lapangan 1 Kiri", description := none }).2
      { name := "Lapangan 1 Kiri", description := none }).2 =
      (createCourt emptyState
        { name := "Lapangan 1 Kiri", description := none }).2 :=
  C5_createCourt_duplicate_conflict emptyState _ _ _ (by decide)
    Relation.ReflTransGen.refl rfl

/-- C1 counterexample: booking hour 999 exists with zero clips; the filtered
list answers 200 with `success = true` — but the payload is JSON null (the
Go `nil` slice), not the empty array the claim states. -/
theorem C1_counterexample :
    (getClips emptyClipsState "999").status = 200 ∧
    (getClips emptyClipsState "999").success = true ∧
    (getClips emptyClipsState "999").data = none ∧
    (getClips emptyClipsState "999").data ≠ some [] := by decide

/-- C1 (amended): a bookingHourId filter that parses as an integer and
matches zero clip rows yields 200 with `success = true` and `data` JSON
null (never 404); likewise every other empty result of the booking-hours
and clips list endpoints is 200 with null data. -/
theorem C1_list_endpoints_empty_give_null (s : DBState) (filt : String)
    (b : Int) (hp : goAtoi filt = some b)
    (he : s.clips.filter (fun c => c.bookingHourId == b) = []) :
    ((getClips s filt).status = 200 ∧ (getClips s filt).success = true ∧
      (getClips s filt).data = none) ∧
    (∀ t : DBState, ∀ g : String, ∀ cid : Int, goAtoi g = some cid →
      t.bookingHours.filter (fun bh => bh.courtId == cid) = [] →
      (getBookingHours t g).status = 200 ∧ (getBookingHours t g).data = none) ∧
    (∀ t : DBState, t.bookingHours = [] →
      (getBookingHours t "").status = 200 ∧
      (getBookingHours t "").data = none) ∧
    (∀ t : DBState, t.clips = [] →
      (getClips t "").status = 200 ∧ (getClips t "").data = none) := by
  refine ⟨?_, ?_, ?_, ?_⟩
  · have hne : filt ≠ "" := by
      intro h0
      rw [h0, goAtoi_empty] at hp
      exact Option.noConfusion hp
    unfold getClips
    rw [if_pos hne]
    simp only [hp]
    simp [he]
  · intro t g cid hg hemp
    have hne : g ≠ "" := by
      intro h0
      rw [h0, goAtoi_empty] at hg
      exact Option.noConfusion hg
    unfold getBookingHours
    rw [if_pos hne]
    simp only [hg]
    simp [hemp]
  · intro t hemp
    unfold getBookingHours
    simp [hemp]
  · intro t hemp
    unfold getClips
    simp [hemp]

/-- C1 witness: the amended statement at the concrete zero-clip state. -/
theorem C1_witness :
    (getClips emptyClipsState "999").status = 200 ∧
    (getClips emptyClipsState "999").data = none := by
  have h := C1_list_endpoints_empty_give_null emptyClipsState "999" 999
    (by decide) (by decide)
  exact ⟨h.1.1, h.1.2.2⟩

/-- Shared helper: for a non-empty filter made of plain characters, the
handler's scanned list is exactly the spec-side active case-insensitive
substring matches. -/
theorem courtsMatched_eq_ci (s : DBState) (f : String) (hne : f ≠ "")
    (hplain : ∀ c ∈ f.data, plainChar c) :
    courtsMatched s f = ciActiveMatches s f := by
  unfold courtsMatched
  rw [if_pos hne]
  exact getCourts_matched_eq s f hplain

/-- C2 counterexample: the active court "Alpha" contains no underscore, so
by the claim the filter "_" matches zero courts and must give 404 — but `_`
is an ILIKE wildcard, the query matches "Alpha", and the handler answers
200 with data. -/
theorem C2_counterexample :
    ciActiveMatches alphaState "_" = [] ∧
    (getCourts alphaState "_").status = 200 ∧
    (getCourts alphaState "_").data ≠ none := by decide

/-- C2 (amended): for every non-empty name filter containing no ILIKE
metacharacter (`%`, `_`, backslash), the filtered `getCourts` returns
exactly the active courts whose name contains the filter as a
case-insensitive substring, with 404 exactly on the empty match set; with
no filter it returns every active court with 200; inactive courts never
appear in any result; and the substring predicate means precisely a
lower-cased infix decomposition. -/
theorem C2_getCourts_spec (s : DBState) (f : String) (hne : f ≠ "")
    (hplain : ∀ c ∈ f.data, plainChar c) :
    (ciActiveMatches s f = [] →
      (getCourts s f).status = 404 ∧ (getCourts s f).success = false) ∧
    (ciActiveMatches s f ≠ [] →
      (getCourts s f).status = 200 ∧
      (getCourts s f).data = some (ciActiveMatches s f)) ∧
    ((getCourts s "").status = 200 ∧
      (getCourts s "").data.getD [] = s.courts.filter (fun c => c.isActive)) ∧
    (∀ g : String, ∀ l : List Court, (getCourts s g).data = some l →
      ∀ c ∈ l, c.isActive = true) ∧
    (∀ m : String, ciSubstr f m = true ↔
      ∃ pre suf, lowerChars m.data = pre ++ lowerChars f.data ++ suf) := by
  have hcm := courtsMatched_eq_ci s f hne hplain
  refine ⟨?_, ?_, ?_, fun g l h => getCourts_data_active s g l h,
    fun m => ciSubstr_iff f m⟩
  · intro hemp
    unfold getCourts
    rw [if_pos ⟨hcm.trans hemp, hne⟩]
    exact ⟨rfl, rfl⟩
  · intro hne2
    have hcmne : courtsMatched s f ≠ [] := by rw [hcm]; exact hne2
    unfold getCourts
    rw [if_neg (fun hand => hcmne hand.1)]
    refine ⟨rfl, ?_⟩
    show (if courtsMatched s f = [] then none else some (courtsMatched s f)) =
      some (ciActiveMatches s f)
    rw [if_neg hcmne, hcm]
  · have hnf : courtsMatched s "" = s.courts.filter (fun c => c.isActive) := by
      unfold courtsMatched
      simp
    unfold getCourts
    rw [if_neg (fun hand => hand.2 rfl)]
    refine ⟨rfl, ?_⟩
    show (if courtsMatched s "" = [] then (none : Option (List Court))
      else some (courtsMatched s "")).getD [] = _
    by_cases hx : courtsMatched s "" = []
    · rw [if_pos hx]
      rw [← hnf, hx]
      rfl
    · rw [if_neg hx]
      rw [← hnf]
      rfl

/-- C2 witness: the filter "kiri" (plain characters) matches the active
sample court case-insensitively, so the handler returns 200 with exactly
that match set. -/
theorem C2_witness :
    ciActiveMatches sampleState "kiri" ≠ [] ∧
    (getCourts sampleState "kiri").status = 200 ∧
    (getCourts sampleState "kiri").data =
      some (ciActiveMatches sampleState "kiri") := by
  have h := C2_getCourts_spec sampleState "kiri" (by decide) (by decide)
  have hx : ciActiveMatches sampleState "kiri" ≠ [] := by decide
  exact ⟨hx, h.2.1 hx⟩

/-- C9: the claim matches the repository's own documentation (README "Max
file size: 100MB", source comment "100MB max"), but the code enforces no
cap: a well-formed upload of 104857601 bytes (100 MB + 1) for existing
booking hour 1 passes the multipart parse — whose `100 << 20` argument only
bounds in-memory buffering — and is accepted end-to-end with 201 and a
stored row carrying the full size. -/
theorem C9_no_size_cap :
    (104857601 : Int) > 100 * 2 ^ 20 ∧
    (uploadClip sampleState bigUploadReq sampleTime "./uploads").1.status
      = 201 ∧
    ((uploadClip sampleState bigUploadReq sampleTime "./uploads").1.data.map
      (fun cl => cl.fileSize)) = some (some 104857601) ∧
    (uploadClip sampleState bigUploadReq sampleTime
      "./uploads").2.clips.length = 1 := by decide

/-- C10 counterexample: with description "camera foo camera" the first
occurrence of the token "camera" is the first token, so by the claim no
camera name is stored — but the loop merely skips index 0, matches the
second occurrence, and stores "foo" in the clip row. -/
theorem C10_counterexample :
    deriveCameraName "" "camera foo camera" = some "foo" ∧
    claimCameraName "" "camera foo camera" = none ∧
    ((uploadClip sampleState camUploadReq sampleTime "./uploads").1.data.map
      (fun cl => cl.cameraName)) = some (some "foo") := by decide

/-- C10 (amended): an explicit camera_name field always wins; otherwise the
derived camera name is the token immediately before the first occurrence of
the exact token "camera" at a non-initial position of the single-space
split (an initial "camera" token is skipped, not match-suppressing), stored
only when that preceding token is non-empty; different casing or
non-standalone occurrences never match. -/
theorem C10_deriveCameraName_spec (cf d : String) :
    deriveCameraName cf d =
      if cf ≠ "" then some cf else amendedCameraName (goSplitSpace d) := by
  by_cases hcf : cf = ""
  · subst hcf
    by_cases hd : d = ""
    · subst hd; decide
    · unfold deriveCameraName
      rw [if_pos (show ("" : String) = "" ∧ d ≠ "" from ⟨rfl, hd⟩),
        scanCameraAux_none]
      show _ = amendedCameraName (goSplitSpace d)
      unfold amendedCameraName
      cases hfind : ((goSplitSpace d).zip (goSplitSpace d).tail).find?
          (fun pr => pr.2 = "camera") with
      | none => simp [hfind]
      | some pr =>
        simp only [hfind, Option.map_some]
        by_cases hpr : pr.1 = "" <;> simp [hpr]
  · unfold deriveCameraName
    rw [if_neg (show ¬(cf = "" ∧ d ≠ "") from fun hand => hcf hand.1)]
    simp [hcf]

end ClipperDash
